import Mathlib

/-!
Verification of the mqtt-logger ingestion pipeline (src/mqtt_log.py).

This file shallowly embeds the program's data model and operations:
bytes and text are `List Nat` (byte values, resp. Unicode code points),
fallible external operations are driven by explicit fault-injection flags, and
side effects (log lines, sink writes, client calls) are reified as event
traces.
-/

set_option maxHeartbeats 1000000

namespace MqttLog

/-! ## Base64 (Python `base64.b64encode`, standard alphabet with padding)

`b64Alphabet` lists the ASCII codes of `A-Z a-z 0-9 + /`; code 61 is `=`
(the pad character). `b64encode` maps a byte list to the ASCII codes of
its standard base64 encoding, exactly as `base64.b64encode` does.
`b64decode` is the inverse transform used to state reversibility. -/

def b64Alphabet : List Nat :=
  [65, 66, 67, 68, 69, 70, 71, 72, 73, 74, 75, 76, 77, 78, 79, 80, 81, 82,
   83, 84, 85, 86, 87, 88, 89, 90,
   97, 98, 99, 100, 101, 102, 103, 104, 105, 106, 107, 108, 109, 110, 111,
   112, 113, 114, 115, 116, 117, 118, 119, 120, 121, 122,
   48, 49, 50, 51, 52, 53, 54, 55, 56, 57, 43, 47]

def b64Char (n : Nat) : Nat := b64Alphabet.getD n 65

def b64encode : List Nat → List Nat
  | [] => []
  | [b1] => [b64Char (b1 / 4), b64Char (b1 % 4 * 16), 61, 61]
  | [b1, b2] => [b64Char (b1 / 4), b64Char (b1 % 4 * 16 + b2 / 16),
                 b64Char (b2 % 16 * 4), 61]
  | b1 :: b2 :: b3 :: rest =>
      b64Char (b1 / 4) :: b64Char (b1 % 4 * 16 + b2 / 16) ::
      b64Char (b2 % 16 * 4 + b3 / 64) :: b64Char (b3 % 64) :: b64encode rest

/-- Value of a base64 alphabet character (inverse of the alphabet table). -/
def b64Value (c : Nat) : Option Nat :=
  if 65 ≤ c ∧ c ≤ 90 then some (c - 65)
  else if 97 ≤ c ∧ c ≤ 122 then some (c - 71)
  else if 48 ≤ c ∧ c ≤ 57 then some (c + 4)
  else if c = 43 then some 62
  else if c = 47 then some 63
  else none

def b64decode : List Nat → Option (List Nat)
  | [] => some []
  | c1 :: c2 :: c3 :: c4 :: rest =>
    match b64Value c1, b64Value c2 with
    | some v1, some v2 =>
      if c3 = 61 then
        if c4 = 61 ∧ rest = [] ∧ v2 % 16 = 0 then
          some [v1 * 4 + v2 / 16]
        else none
      else
        match b64Value c3 with
        | some v3 =>
          if c4 = 61 then
            if rest = [] ∧ v3 % 4 = 0 then
              some [v1 * 4 + v2 / 16, v2 % 16 * 16 + v3 / 4]
            else none
          else
            match b64Value c4, b64decode rest with
            | some v4, some tail =>
                some ((v1 * 4 + v2 / 16) :: (v2 % 16 * 16 + v3 / 4) ::
                      (v3 % 4 * 64 + v4) :: tail)
            | _, _ => none
        | none => none
    | _, _ => none
  | _ => none

theorem b64Value_b64Char : ∀ v < 64, b64Value (b64Char v) = some v := by decide

theorem b64Char_ne_pad (v : Nat) : b64Char v ≠ 61 := by
  rcases Nat.lt_or_ge v 64 with h | h
  · exact (by decide : ∀ v < 64, b64Char v ≠ 61) v h
  · have hlen : b64Alphabet.length ≤ v := by
      have : b64Alphabet.length = 64 := rfl
      omega
    show b64Alphabet.getD v 65 ≠ 61
    rw [List.getD_eq_default _ _ hlen]
    decide

/-- Base64 round trip: decoding the encoding of any byte list recovers it. -/
theorem b64decode_encode (bs : List Nat) (h : ∀ b ∈ bs, b < 256) :
    b64decode (b64encode bs) = some bs := by
  match bs with
  | [] => simp [b64encode, b64decode]
  | [b1] =>
    have hb1 : b1 < 256 := h b1 (by simp)
    simp only [b64encode, b64decode]
    rw [b64Value_b64Char (b1 / 4) (by omega),
        b64Value_b64Char (b1 % 4 * 16) (by omega)]
    have h16 : b1 % 4 * 16 % 16 = 0 := by omega
    simp [h16]
    omega
  | [b1, b2] =>
    have hb1 : b1 < 256 := h b1 (by simp)
    have hb2 : b2 < 256 := h b2 (by simp)
    simp only [b64encode, b64decode]
    rw [b64Value_b64Char (b1 / 4) (by omega),
        b64Value_b64Char (b1 % 4 * 16 + b2 / 16) (by omega),
        b64Value_b64Char (b2 % 16 * 4) (by omega)]
    have h4 : b2 % 16 * 4 % 4 = 0 := by omega
    simp [b64Char_ne_pad, h4]
    refine ⟨by omega, by omega⟩
  | b1 :: b2 :: b3 :: rest =>
    have hb1 : b1 < 256 := h b1 (by simp)
    have hb2 : b2 < 256 := h b2 (by simp)
    have hb3 : b3 < 256 := h b3 (by simp)
    have ih := b64decode_encode rest (fun b hb => h b (by simp [hb]))
    simp only [b64encode, b64decode]
    rw [b64Value_b64Char (b1 / 4) (by omega),
        b64Value_b64Char (b1 % 4 * 16 + b2 / 16) (by omega),
        b64Value_b64Char (b2 % 16 * 4 + b3 / 64) (by omega),
        b64Value_b64Char (b3 % 64) (by omega), ih]
    simp [b64Char_ne_pad]
    refine ⟨by omega, by omega, by omega⟩

/-! ## Strict UTF-8 decoding (Python `bytes.decode('utf-8')`)

`utf8Decode` maps a byte list to the list of decoded Unicode code points,
or `none` when the bytes are not valid UTF-8 (Python raises
`UnicodeDecodeError` there). It implements RFC 3629 strict decoding:
continuation bytes must be `0x80-0xBF`, overlong encodings, surrogates
(`U+D800-U+DFFF`) and code points above `U+10FFFF` are rejected. -/

def utf8Decode : List Nat → Option (List Nat)
  | [] => some []
  | b1 :: rest =>
    if b1 ≤ 127 then
      (utf8Decode rest).map (fun t => b1 :: t)
    else if 194 ≤ b1 ∧ b1 ≤ 223 then
      match rest with
      | b2 :: rest2 =>
        if 128 ≤ b2 ∧ b2 ≤ 191 then
          (utf8Decode rest2).map (fun t => (b1 % 32 * 64 + b2 % 64) :: t)
        else none
      | [] => none
    else if 224 ≤ b1 ∧ b1 ≤ 239 then
      match rest with
      | b2 :: b3 :: rest3 =>
        if (128 ≤ b2 ∧ b2 ≤ 191) ∧ (128 ≤ b3 ∧ b3 ≤ 191)
            ∧ (b1 = 224 → 160 ≤ b2) ∧ (b1 = 237 → b2 ≤ 159) then
          (utf8Decode rest3).map
            (fun t => (b1 % 16 * 4096 + b2 % 64 * 64 + b3 % 64) :: t)
        else none
      | _ => none
    else if 240 ≤ b1 ∧ b1 ≤ 244 then
      match rest with
      | b2 :: b3 :: b4 :: rest4 =>
        if (128 ≤ b2 ∧ b2 ≤ 191) ∧ (128 ≤ b3 ∧ b3 ≤ 191) ∧ (128 ≤ b4 ∧ b4 ≤ 191)
            ∧ (b1 = 240 → 144 ≤ b2) ∧ (b1 = 244 → b2 ≤ 143) then
          (utf8Decode rest4).map
            (fun t => (b1 % 8 * 262144 + b2 % 64 * 4096 + b3 % 64 * 64 + b4 % 64) :: t)
        else none
      | _ => none
    else none

/-! ## Record Codec (`on_message`, src/mqtt_log.py lines 81-91)

A `StoredRecord` is the tuple `(topic, payload, datetime, qos, retain)`
that `on_message` enqueues. Text values are lists of Unicode code points.
`on_message` mirrors the callback: strict UTF-8 decode of the payload
bytes; on `UnicodeDecodeError` fall back to the base64 encoding of the
raw bytes (whose ASCII codes are the stored code points) and log a
warning (the returned `Bool` records whether the warning fired). -/

structure StoredRecord where
  topic : List Nat
  payload : List Nat
  datetime : List Nat
  qos : Nat
  retain : Bool
deriving DecidableEq

def on_message (topic : List Nat) (payloadBytes : List Nat)
    (now : List Nat) (qos : Nat) (retain : Bool) : StoredRecord × Bool :=
  match utf8Decode payloadBytes with
  | some text => (⟨topic, text, now, qos, retain⟩, false)
  | none => (⟨topic, b64encode payloadBytes, now, qos, retain⟩, true)

/-- C1. For every payload byte sequence delivered to `on_message`,
either strict UTF-8 decoding succeeds and the stored payload is exactly
the decoded text, or decoding fails and the stored payload is the base64
encoding of the raw bytes, and base64-decoding the stored text reproduces
the original bytes exactly (the fallback is a reversible round trip; the
fallback path also fires the warning log). -/
theorem record_codec_roundtrip (topic bytes now : List Nat) (qos : Nat)
    (retain : Bool) (h : ∀ b ∈ bytes, b < 256) :
    (∃ text, utf8Decode bytes = some text
      ∧ (on_message topic bytes now qos retain).1.payload = text
      ∧ (on_message topic bytes now qos retain).2 = false)
    ∨ (utf8Decode bytes = none
      ∧ (on_message topic bytes now qos retain).1.payload = b64encode bytes
      ∧ b64decode ((on_message topic bytes now qos retain).1.payload) = some bytes
      ∧ (on_message topic bytes now qos retain).2 = true) := by
  cases e : utf8Decode bytes with
  | some t =>
    exact Or.inl ⟨t, rfl, by simp [on_message, e], by simp [on_message, e]⟩
  | none =>
    refine Or.inr ⟨rfl, by simp [on_message, e], ?_, by simp [on_message, e]⟩
    have hp : (on_message topic bytes now qos retain).1.payload = b64encode bytes := by
      simp [on_message, e]
    rw [hp]
    exact b64decode_encode bytes h

/-- Witness for C1 at the spec's own example input `\xff\xfe\x00`
(invalid UTF-8) on topic `"x"`. -/
theorem record_codec_roundtrip_witness :
    (∀ b ∈ [255, 254, 0], b < 256)
    ∧ ((∃ text, utf8Decode [255, 254, 0] = some text
        ∧ (on_message [120] [255, 254, 0] [50] 0 false).1.payload = text
        ∧ (on_message [120] [255, 254, 0] [50] 0 false).2 = false)
      ∨ (utf8Decode [255, 254, 0] = none
        ∧ (on_message [120] [255, 254, 0] [50] 0 false).1.payload = b64encode [255, 254, 0]
        ∧ b64decode ((on_message [120] [255, 254, 0] [50] 0 false).1.payload) = some [255, 254, 0]
        ∧ (on_message [120] [255, 254, 0] [50] 0 false).2 = true)) :=
  ⟨by decide, record_codec_roundtrip [120] [255, 254, 0] [50] 0 false (by decide)⟩

/-! ## Receipt Buffer (`message_queue`, src/mqtt_log.py lines 35, 91, 128-131)

The FIFO queue is a list (front = oldest). `on_message` pushes at the
back (`message_queue.put`); the persister's per-tick drain is the loop
`while not message_queue.empty(): batch_messages.append(message_queue.get())`,
modelled by `drain_loop` (repeatedly `get` the front, `append` to the
batch). `buffer_run` replays a sequence of pushes and drain ticks from
the empty queue, collecting each tick's drained batch. -/

inductive BufOp (α : Type) where
  | push (r : α)
  | drainTick

def drain_loop {α : Type} : List α → List α → List α × List α
  | [], batch => (batch, [])
  | r :: q, batch => drain_loop q (batch ++ [r])

def buffer_step {α : Type} (st : List α × List (List α)) (op : BufOp α) :
    List α × List (List α) :=
  match op with
  | .push r => (st.1 ++ [r], st.2)
  | .drainTick =>
      let d := drain_loop st.1 []
      (d.2, st.2 ++ [d.1])

def buffer_run {α : Type} (ops : List (BufOp α)) : List α × List (List α) :=
  ops.foldl buffer_step ([], [])

/-- The records pushed by a sequence of buffer operations, in push order. -/
def pushed {α : Type} (ops : List (BufOp α)) : List α :=
  ops.filterMap (fun op => match op with | .push r => some r | .drainTick => none)

theorem drain_loop_spec {α : Type} (q batch : List α) :
    drain_loop q batch = (batch ++ q, []) := by
  induction q generalizing batch with
  | nil => simp [drain_loop]
  | cons r q ih => simp [drain_loop, ih]

theorem buffer_run_invariant {α : Type} (ops : List (BufOp α))
    (q : List α) (ds : List (List α)) :
    (ops.foldl buffer_step (q, ds)).2.flatten ++ (ops.foldl buffer_step (q, ds)).1
      = ds.flatten ++ q ++ pushed ops := by
  induction ops generalizing q ds with
  | nil => simp [pushed]
  | cons op rest ih =>
    cases op with
    | push r =>
      simp only [List.foldl_cons, buffer_step]
      rw [ih]
      simp [pushed]
    | drainTick =>
      simp only [List.foldl_cons, buffer_step, drain_loop_spec]
      rw [ih]
      simp [pushed]

/-- C2. For every sequence of pushes interleaved with per-tick drains,
the concatenation of all drain results followed by what is still queued
equals the pushed records in push order: every pushed record occurrence
lands in exactly one drain result (or is still pending in the queue),
in order, with no duplication and no loss; after a final drain the queue
is empty, so every pushed record is in exactly one drain result. -/
theorem buffer_fifo_no_loss {α : Type} (ops : List (BufOp α)) :
    (buffer_run ops).2.flatten ++ (buffer_run ops).1 = pushed ops
    ∧ (buffer_run (ops ++ [BufOp.drainTick])).2.flatten = pushed ops := by
  constructor
  · simpa using buffer_run_invariant ops [] []
  · have h1 := buffer_run_invariant (ops ++ [BufOp.drainTick]) ([] : List α) []
    have h2 : (buffer_run (ops ++ [BufOp.drainTick])).1 = [] := by
      unfold buffer_run
      rw [List.foldl_append]
      simp [buffer_step, drain_loop_spec]
    unfold buffer_run at h2 ⊢
    rw [h2, List.append_nil] at h1
    simp only [h1]
    simp [pushed, List.filterMap_append]

/-! ## Broker Connection callbacks (src/mqtt_log.py lines 94-107)

`on_connect` and `on_disconnect` are modelled as the list of externally
visible actions each callback performs, in program order. Reason codes
are naturals (`0` = success / deliberate disconnect). -/

inductive MqttAction where
  | logInfo
  | logWarning
  | logError
  | sleep (seconds : Nat)
  | reconnect
  | subscribe (topic : String)
  | exitProcess
deriving DecidableEq

def on_connect (reason_code : Nat) : List MqttAction :=
  if reason_code = 0 then [.logInfo, .subscribe "#"] else [.logError]

def on_disconnect (reason_code : Nat) : List MqttAction :=
  .logWarning ::
    (if reason_code ≠ 0 then [.logWarning, .sleep 5, .reconnect] else [])

/-- C5. For every unexpected disconnect (reason code ≠ 0) the handler
sleeps 5 seconds and then issues exactly one reconnect call (the
reconnect is the last action, immediately preceded by the 5-second
sleep, and no reconnect occurs earlier); a disconnect with reason code 0
issues no reconnect; and a successful connection (reason code 0)
subscribes to the all-topics wildcard `#`. -/
theorem disconnect_backoff_single_reconnect (rc : Nat) (h : rc ≠ 0) :
    (on_disconnect rc).count MqttAction.reconnect = 1
    ∧ (∃ pre, on_disconnect rc = pre ++ [MqttAction.sleep 5, MqttAction.reconnect]
        ∧ MqttAction.reconnect ∉ pre)
    ∧ (on_disconnect 0).count MqttAction.reconnect = 0
    ∧ MqttAction.subscribe "#" ∈ on_connect 0 := by
  have e : on_disconnect rc
      = [.logWarning, .logWarning, .sleep 5, .reconnect] := by
    simp [on_disconnect, h]
  refine ⟨by rw [e]; decide, ⟨[.logWarning, .logWarning], by rw [e]; decide, by decide⟩,
    by decide, by decide⟩

/-- Witness for C5 at the concrete unexpected-disconnect reason code 7. -/
theorem disconnect_backoff_single_reconnect_witness :
    (7 ≠ 0)
    ∧ ((on_disconnect 7).count MqttAction.reconnect = 1
      ∧ (∃ pre, on_disconnect 7 = pre ++ [MqttAction.sleep 5, MqttAction.reconnect]
          ∧ MqttAction.reconnect ∉ pre)
      ∧ (on_disconnect 0).count MqttAction.reconnect = 0
      ∧ MqttAction.subscribe "#" ∈ on_connect 0) :=
  ⟨by decide, disconnect_backoff_single_reconnect 7 (by decide)⟩

/-! ## Credentials (`setup_mqtt`, src/mqtt_log.py lines 114-115)

`args.username` / `args.password` are `Option String` (`none` = not
provided). Python's `if args.username and args.password:` guard passes
exactly when both are present and non-empty; only then does the client
get credentials (`username_pw_set`). `setup_mqtt_creds` returns the
credentials set on the client, `none` meaning an anonymous connection. -/

def truthy : Option String → Bool
  | none => false
  | some s => !s.isEmpty

def setup_mqtt_creds (username password : Option String) :
    Option (String × String) :=
  if truthy username && truthy password then
    some (username.getD "", password.getD "")
  else none

/-- C10. Credentials are set on the client exactly when both a
username and a password are provided and non-empty; a username without
a password (or vice versa, or empty strings) leaves the client
anonymous with no credentials set. -/
theorem creds_set_iff_both_provided (username password : Option String) :
    (setup_mqtt_creds username password ≠ none
      ↔ (∃ u, username = some u ∧ u ≠ "") ∧ (∃ p, password = some p ∧ p ≠ ""))
    ∧ (∀ u p, username = some u → password = some p → u ≠ "" → p ≠ "" →
        setup_mqtt_creds username password = some (u, p)) := by
  constructor
  · cases username with
    | none => simp [setup_mqtt_creds, truthy]
    | some u =>
      cases password with
      | none => simp [setup_mqtt_creds, truthy]
      | some p =>
        by_cases hu : u = "" <;> by_cases hp : p = "" <;>
          simp [setup_mqtt_creds, truthy, hu, hp, String.isEmpty_iff]
  · intro u p hu hp hu' hp'
    subst hu; subst hp
    simp [setup_mqtt_creds, truthy, String.isEmpty_iff, hu', hp']

/-- Witness for C10: username provided without a password connects
anonymously; both provided non-empty sets exactly those credentials. -/
theorem creds_set_iff_both_provided_witness :
    setup_mqtt_creds (some "alice") none = none
    ∧ setup_mqtt_creds (some "alice") (some "pw") = some ("alice", "pw") :=
  ⟨by have h := (creds_set_iff_both_provided (some "alice") none).1
      by_cases hc : setup_mqtt_creds (some "alice") none = none
      · exact hc
      · exact absurd (h.mp hc) (by simp),
   (creds_set_iff_both_provided (some "alice") (some "pw")).2 "alice" "pw"
      rfl rfl (by decide) (by decide)⟩

/-! ## Dual-Sink Persister (src/mqtt_log.py lines 55-78, 128-136)

Each tick's sink activity is a trace of events. The environment's
failures are injected: `sqFail` makes `cursor.executemany`/`conn.commit`
raise, `jsonFail r` makes the file write for record `r` raise. Both
`save_to_sqlite_batch` and the per-record JSON write wrap the raw
operation in `try/except Exception`, turning a raised error into a
logged-error event and a normal return — so they live in `Except` and
the theorems show the error constructor is unreachable past the wrapper.
`Ev.sqliteInsert batch` stands for the single multi-row
`executemany` + `commit` of the whole batch (one transaction). -/

inductive Ev where
  | sqliteInsert (batch : List StoredRecord)
  | sqliteErrorLogged
  | jsonAppend (r : StoredRecord)
  | jsonErrorLogged (r : StoredRecord)
deriving DecidableEq

/-- The raw relational write: raises iff the injected fault is on. -/
def sqlite_attempt (sqFail : Bool) (batch : List StoredRecord) :
    Except String (List Ev) :=
  if sqFail then .error "sqlite write failed" else .ok [.sqliteInsert batch]

/-- `save_to_sqlite_batch` (lines 55-63): try the batch insert, catch
any exception and log it. -/
def save_to_sqlite_batch (sqFail : Bool) (batch : List StoredRecord) :
    Except String (List Ev) :=
  match sqlite_attempt sqFail batch with
  | .ok evs => .ok evs
  | .error _ => .ok [.sqliteErrorLogged]

/-- The raw JSON file write for one record: raises iff the fault is on. -/
def json_attempt (fail : Bool) (r : StoredRecord) : Except String (List Ev) :=
  if fail then .error "json write failed" else .ok [.jsonAppend r]

/-- `save_to_json` (lines 66-78), event view: try the append, catch any
exception and log it. -/
def save_to_json_events (fail : Bool) (r : StoredRecord) :
    Except String (List Ev) :=
  match json_attempt fail r with
  | .ok evs => .ok evs
  | .error _ => .ok [.jsonErrorLogged r]

/-- `for message in batch_messages: save_to_json(*message)` (lines 134-135). -/
def save_json_loop (jsonFail : StoredRecord → Bool) :
    List StoredRecord → Except String (List Ev)
  | [] => .ok []
  | r :: rest => do
      let evs ← save_to_json_events (jsonFail r) r
      let more ← save_json_loop jsonFail rest
      .ok (evs ++ more)

/-- One persister tick body (lines 132-135): if the drained batch is
non-empty, the sqlite batch insert runs first, then the JSON append
loop. -/
def persister_tick (sqFail : Bool) (jsonFail : StoredRecord → Bool)
    (batch : List StoredRecord) : Except String (List Ev) :=
  if batch.isEmpty then .ok []
  else do
    let sq ← save_to_sqlite_batch sqFail batch
    let js ← save_json_loop jsonFail batch
    .ok (sq ++ js)

/-- The persister loop over a finite schedule of ticks, each with its
own drained batch and injected faults (lines 128-136). -/
def persister_run :
    List (Bool × (StoredRecord → Bool) × List StoredRecord) →
      Except String (List Ev)
  | [] => .ok []
  | (sqF, jF, batch) :: rest => do
      let evs ← persister_tick sqF jF batch
      let more ← persister_run rest
      .ok (evs ++ more)

def jsonEventFor (jsonFail : StoredRecord → Bool) (r : StoredRecord) : Ev :=
  if jsonFail r then .jsonErrorLogged r else .jsonAppend r

theorem save_json_loop_ok (jsonFail : StoredRecord → Bool)
    (batch : List StoredRecord) :
    save_json_loop jsonFail batch = .ok (batch.map (jsonEventFor jsonFail)) := by
  induction batch with
  | nil => rfl
  | cons r rest ih =>
    by_cases hf : jsonFail r <;>
      · unfold save_json_loop
        rw [ih]
        simp [save_to_json_events, json_attempt, hf, jsonEventFor]
        rfl

theorem save_to_sqlite_batch_ok (sqFail : Bool) (batch : List StoredRecord) :
    save_to_sqlite_batch sqFail batch
      = .ok (if sqFail then [.sqliteErrorLogged] else [.sqliteInsert batch]) := by
  cases sqFail <;> rfl

theorem persister_tick_ok (sqFail : Bool) (jsonFail : StoredRecord → Bool)
    (batch : List StoredRecord) :
    persister_tick sqFail jsonFail batch
      = .ok (if batch.isEmpty then []
          else (if sqFail then [.sqliteErrorLogged] else [.sqliteInsert batch])
            ++ batch.map (jsonEventFor jsonFail)) := by
  by_cases hb : batch.isEmpty
  · simp [persister_tick, hb]
  · unfold persister_tick
    rw [save_to_sqlite_batch_ok, save_json_loop_ok]
    simp [hb]
    rfl

/-- C3. Sink-write failures are contained inside the tick: whatever
faults are injected, the tick returns normally (never `.error`), a
sqlite failure is logged and the JSON append is still attempted for
every record of the batch (logged itself when it fails), and the
persister loop runs every scheduled tick to completion regardless of
failures. -/
theorem tick_failures_contained (batch : List StoredRecord)
    (h : batch ≠ []) (sqFail : Bool) (jsonFail : StoredRecord → Bool)
    (schedule : List (Bool × (StoredRecord → Bool) × List StoredRecord)) :
    (∃ evs, persister_tick sqFail jsonFail batch = .ok evs
      ∧ (sqFail = true → Ev.sqliteErrorLogged ∈ evs)
      ∧ (∀ r ∈ batch, Ev.jsonAppend r ∈ evs ∨ Ev.jsonErrorLogged r ∈ evs)
      ∧ (∀ r ∈ batch, jsonFail r = true → Ev.jsonErrorLogged r ∈ evs))
    ∧ (∃ evs, persister_run schedule = .ok evs) := by
  constructor
  · refine ⟨_, persister_tick_ok sqFail jsonFail batch, ?_, ?_, ?_⟩
    · intro hsq
      have hb : batch.isEmpty = false := by
        cases batch with
        | nil => exact absurd rfl h
        | cons r rest => rfl
      simp [hb, hsq]
    · intro r hr
      have hb : batch.isEmpty = false := by
        cases batch with
        | nil => exact absurd rfl h
        | cons r rest => rfl
      by_cases hf : jsonFail r
      · right
        simp [hb]
        right
        exact ⟨r, hr, by simp [jsonEventFor, hf]⟩
      · left
        simp [hb]
        right
        exact ⟨r, hr, by simp [jsonEventFor, hf]⟩
    · intro r hr hf
      have hb : batch.isEmpty = false := by
        cases batch with
        | nil => exact absurd rfl h
        | cons r rest => rfl
      simp [hb]
      right
      exact ⟨r, hr, by simp [jsonEventFor, hf]⟩
  · induction schedule with
    | nil => exact ⟨[], rfl⟩
    | cons t rest ih =>
      obtain ⟨evs, hevs⟩ := ih
      obtain ⟨sqF, jF, b⟩ := t
      refine ⟨(if b.isEmpty then []
          else (if sqF then [Ev.sqliteErrorLogged] else [Ev.sqliteInsert b])
            ++ b.map (jsonEventFor jF)) ++ evs, ?_⟩
      unfold persister_run
      rw [persister_tick_ok, hevs]
      rfl

/-- Witness for C3 at a concrete one-record batch with a sqlite failure
and a JSON failure injected, over a two-tick schedule. -/
theorem tick_failures_contained_witness :
    (([⟨[97], [104], [50], 1, false⟩] : List StoredRecord) ≠ [])
    ∧ ((∃ evs, persister_tick true (fun _ => true) [⟨[97], [104], [50], 1, false⟩] = .ok evs
        ∧ (true = true → Ev.sqliteErrorLogged ∈ evs)
        ∧ (∀ r ∈ [(⟨[97], [104], [50], 1, false⟩ : StoredRecord)],
            Ev.jsonAppend r ∈ evs ∨ Ev.jsonErrorLogged r ∈ evs)
        ∧ (∀ r ∈ [(⟨[97], [104], [50], 1, false⟩ : StoredRecord)],
            (fun _ => true) r = true → Ev.jsonErrorLogged r ∈ evs))
      ∧ (∃ evs, persister_run
          [(true, fun _ => true, [⟨[97], [104], [50], 1, false⟩]),
           (false, fun _ => false, [])] = .ok evs)) :=
  ⟨by decide,
   tick_failures_contained [⟨[97], [104], [50], 1, false⟩] (by decide) true
     (fun _ => true)
     [(true, fun _ => true, [⟨[97], [104], [50], 1, false⟩]),
      (false, fun _ => false, [])]⟩

def isSqliteEv : Ev → Bool
  | .sqliteInsert _ => true
  | .sqliteErrorLogged => true
  | _ => false

def isJsonEv : Ev → Bool
  | .jsonAppend _ => true
  | .jsonErrorLogged _ => true
  | _ => false

/-- The records of the JSON-sink events of a trace, in trace order. -/
def jsonRecords (evs : List Ev) : List StoredRecord :=
  evs.filterMap (fun e => match e with
    | .jsonAppend r => some r
    | .jsonErrorLogged r => some r
    | _ => none)

/-- C4. For every non-empty batch, the tick trace starts with the
single relational attempt (the whole batch as one multi-row insert when
it succeeds) and everything after it is file-sink activity, so the
relational insert is attempted before any file append; and the file
sink receives exactly the batch's records in receipt order — no
reordering and no deduplication. -/
theorem tick_sqlite_before_json (batch : List StoredRecord)
    (h : batch ≠ []) (sqFail : Bool) (jsonFail : StoredRecord → Bool) :
    ∃ e tail, persister_tick sqFail jsonFail batch = .ok (e :: tail)
      ∧ isSqliteEv e = true
      ∧ (∀ e' ∈ tail, isJsonEv e' = true)
      ∧ jsonRecords (e :: tail) = batch
      ∧ (sqFail = false → e = Ev.sqliteInsert batch) := by
  have hb : batch.isEmpty = false := by
    cases batch with
    | nil => exact absurd rfl h
    | cons r rest => rfl
  refine ⟨(if sqFail then Ev.sqliteErrorLogged else Ev.sqliteInsert batch),
    batch.map (jsonEventFor jsonFail), ?_, ?_, ?_, ?_, ?_⟩
  · rw [persister_tick_ok]
    cases sqFail <;> simp [hb]
  · cases sqFail <;> simp [isSqliteEv]
  · intro e' he'
    obtain ⟨r, _, rfl⟩ := List.mem_map.mp he'
    by_cases hf : jsonFail r <;> simp [jsonEventFor, hf, isJsonEv]
  · have hrecs : ∀ l : List StoredRecord,
        jsonRecords (l.map (jsonEventFor jsonFail)) = l := by
      intro l
      induction l with
      | nil => rfl
      | cons r rest ih =>
        by_cases hf : jsonFail r <;>
          simp [jsonRecords, jsonEventFor, hf] at ih ⊢ <;> exact ih
    cases sqFail <;> simp [jsonRecords] at * <;>
      simpa [jsonRecords] using hrecs batch
  · intro hsq
    simp [hsq]

/-- Witness for C4 at a concrete two-record batch (with a duplicate
record, showing no deduplication) and no injected faults. -/
theorem tick_sqlite_before_json_witness :
    (([⟨[97], [104], [50], 1, false⟩, ⟨[97], [104], [50], 1, false⟩] : List StoredRecord) ≠ [])
    ∧ (∃ e tail, persister_tick false (fun _ => false)
          [⟨[97], [104], [50], 1, false⟩, ⟨[97], [104], [50], 1, false⟩] = .ok (e :: tail)
        ∧ isSqliteEv e = true
        ∧ (∀ e' ∈ tail, isJsonEv e' = true)
        ∧ jsonRecords (e :: tail)
            = [⟨[97], [104], [50], 1, false⟩, ⟨[97], [104], [50], 1, false⟩]
        ∧ (false = false →
            e = Ev.sqliteInsert [⟨[97], [104], [50], 1, false⟩, ⟨[97], [104], [50], 1, false⟩])) :=
  ⟨by decide,
   tick_sqlite_before_json
     [⟨[97], [104], [50], 1, false⟩, ⟨[97], [104], [50], 1, false⟩]
     (by decide) false (fun _ => false)⟩

/-! ## Startup (src/mqtt_log.py lines 110-126)

`setup_sqlite()` and `setup_mqtt()` run in `__main__` before the
`try`/`finally` block, so an exception raised by either (sqlite cannot
open its file, `client.connect` fails at the socket level) propagates
uncaught and Python terminates the process with exit status 1.
`main_startup` returns the startup event trace plus the uncaught
exception, if any; `connect` is attempted at most once and never
retried. An MQTT-level rejection (non-zero CONNACK reason code) is NOT
an exception: `client.connect` has already returned, the network loop
delivers it to `on_connect`, whose non-zero branch only logs an error
(lines 98-99). -/

inductive StartupEv where
  | sqliteOpened
  | connectAttempt
  | connected
deriving DecidableEq

def main_startup (dbFail connectFail : Bool) :
    List StartupEv × Option String :=
  if dbFail then ([], some "sqlite open failed")
  else if connectFail then
    ([.sqliteOpened, .connectAttempt], some "connection refused")
  else ([.sqliteOpened, .connectAttempt, .connected], none)

/-- Exit status of the process when startup ends as given: an uncaught
Python exception terminates the interpreter with status 1. -/
def startup_exit_code (r : List StartupEv × Option String) : Nat :=
  match r.2 with
  | some _ => 1
  | none => 0

/-- C6 counterexample. The claim includes: a broker that rejects the
connection (non-zero CONNACK reason code, here 135 = not authorized)
terminates the process. In the code the rejection is delivered to
`on_connect`, which only logs an error: it neither exits the process
nor reconnects, and the main loop keeps running. -/
theorem startup_connack_reject_only_logs :
    on_connect 135 = [MqttAction.logError]
    ∧ MqttAction.exitProcess ∉ on_connect 135
    ∧ MqttAction.reconnect ∉ on_connect 135 := by decide

/-- C6 amended. Startup faults that raise — the sqlite store
cannot be opened, or the initial socket-level connect fails — abort the
process with a non-zero exit, and the initial connection is attempted
at most once (never retried); but an MQTT-level rejection of the
connection only produces an error log from `on_connect` and does not
terminate the process. -/
theorem startup_faults_fatal (dbFail connectFail : Bool)
    (h : dbFail = true ∨ connectFail = true) :
    startup_exit_code (main_startup dbFail connectFail) ≠ 0
    ∧ ((main_startup dbFail connectFail).1.count StartupEv.connectAttempt ≤ 1)
    ∧ (∀ rc, rc ≠ 0 → on_connect rc = [MqttAction.logError]
        ∧ MqttAction.exitProcess ∉ on_connect rc) := by
  refine ⟨?_, ?_, ?_⟩
  · rcases h with h | h <;> cases dbFail <;> cases connectFail <;>
      simp_all [main_startup, startup_exit_code]
  · cases dbFail <;> cases connectFail <;> decide
  · intro rc hrc
    constructor
    · simp [on_connect, hrc]
    · simp [on_connect, hrc]

/-- Witness for C6 (amended): a socket-level connect failure with the
store opening fine. -/
theorem startup_faults_fatal_witness :
    ((false : Bool) = true ∨ (true : Bool) = true)
    ∧ (startup_exit_code (main_startup false true) ≠ 0
      ∧ ((main_startup false true).1.count StartupEv.connectAttempt ≤ 1)
      ∧ (∀ rc, rc ≠ 0 → on_connect rc = [MqttAction.logError]
          ∧ MqttAction.exitProcess ∉ on_connect rc)) :=
  ⟨by decide, startup_faults_fatal false true (by decide)⟩

/-! ## Shutdown (src/mqtt_log.py lines 137-144)

On `KeyboardInterrupt` the `finally` block runs
`mqtt_client.loop_stop(); mqtt_client.disconnect(); cursor.close();
conn.close()` and the process exits. The block never touches
`message_queue`: records still buffered at interrupt time are not
drained or written. `shutdown_run` returns the actions performed, in
program order, and the buffer contents it leaves behind. -/

inductive ShutdownEv where
  | loopStopCall
  | clientDisconnectCall
  | cursorCloseCall
  | connCloseCall
  | sinkWrite
  | rollback
deriving DecidableEq

def shutdown_run (pending : List StoredRecord) :
    List ShutdownEv × List StoredRecord :=
  ([.loopStopCall, .clientDisconnectCall, .cursorCloseCall, .connCloseCall],
   pending)

def sampleRecord : StoredRecord := ⟨[97], [104, 105], [50], 1, false⟩

/-- C7 counterexample. The claim includes a final drain-and-flush of
the Receipt Buffer when feasible. With one record pending at interrupt
(and nothing making a drain infeasible), the shutdown sequence performs
no sink write at all and leaves the record in the buffer: it is lost,
never flushed. -/
theorem shutdown_no_final_drain :
    shutdown_run [sampleRecord]
      = ([ShutdownEv.loopStopCall, ShutdownEv.clientDisconnectCall,
          ShutdownEv.cursorCloseCall, ShutdownEv.connCloseCall], [sampleRecord])
    ∧ ShutdownEv.sinkWrite ∉ (shutdown_run [sampleRecord]).1 := by decide

/-- C7 amended. On a process-level interrupt, shutdown stops the
network loop (no new events), disconnects the MQTT client, closes the
database cursor and connection, then exits; no rollback beyond the
relational store's own per-batch transaction is attempted — but no
final drain-and-flush of the Receipt Buffer is performed either:
whatever is buffered at interrupt time is left unwritten. -/
theorem shutdown_orderly_without_drain (pending : List StoredRecord) :
    (shutdown_run pending).1
      = [ShutdownEv.loopStopCall, ShutdownEv.clientDisconnectCall,
         ShutdownEv.cursorCloseCall, ShutdownEv.connCloseCall]
    ∧ (shutdown_run pending).2 = pending
    ∧ ShutdownEv.sinkWrite ∉ (shutdown_run pending).1
    ∧ ShutdownEv.rollback ∉ (shutdown_run pending).1 := by
  refine ⟨rfl, rfl, ?_, ?_⟩ <;> simp [shutdown_run]

/-! ## JSON file sink (`save_to_json`, src/mqtt_log.py lines 66-78)

`json.dumps` with default options (`ensure_ascii=True`, separators
`", "` / `": "`) serialises the five-key dict built on lines 68-74, in
insertion order. Strings are escaped as CPython's encoder does: `"` and
`\` get a backslash, the control characters BS HT LF FF CR get their
short escapes, other characters outside `0x20-0x7e` become `\uXXXX`
(with a surrogate pair above `U+FFFF`). The file is opened in append
mode and receives the serialised object plus `"\n"`; `save_to_json`
maps the previous file contents (a list of code points) to the new
contents. -/

def hexDigit (n : Nat) : Nat := if n < 10 then 48 + n else 87 + n

def uEscape (n : Nat) : List Nat :=
  [92, 117, hexDigit (n / 4096 % 16), hexDigit (n / 256 % 16),
   hexDigit (n / 16 % 16), hexDigit (n % 16)]

def escapeChar (c : Nat) : List Nat :=
  if c = 34 then [92, 34]
  else if c = 92 then [92, 92]
  else if c = 8 then [92, 98]
  else if c = 9 then [92, 116]
  else if c = 10 then [92, 110]
  else if c = 12 then [92, 102]
  else if c = 13 then [92, 114]
  else if 32 ≤ c ∧ c ≤ 126 then [c]
  else if c < 65536 then uEscape c
  else uEscape (55296 + (c - 65536) / 1024) ++ uEscape (56320 + (c - 65536) % 1024)

def jsonString (s : List Nat) : List Nat :=
  [34] ++ (s.map escapeChar).flatten ++ [34]

def natToDigits (n : Nat) : List Nat :=
  if n < 10 then [48 + n] else natToDigits (n / 10) ++ [48 + n % 10]
termination_by n
decreasing_by omega

def jsonBool : Bool → List Nat
  | true => [116, 114, 117, 101]
  | false => [102, 97, 108, 115, 101]

def strLit (s : String) : List Nat := s.toList.map Char.toNat

def json_dumps (r : StoredRecord) : List Nat :=
  strLit "\x7b\"topic\": " ++ jsonString r.topic
  ++ strLit ", \"payload\": " ++ jsonString r.payload
  ++ strLit ", \"datetime\": " ++ jsonString r.datetime
  ++ strLit ", \"qos\": " ++ natToDigits r.qos
  ++ strLit ", \"retain\": " ++ jsonBool r.retain
  ++ strLit "\x7d"

def save_to_json (file : List Nat) (r : StoredRecord) : List Nat :=
  file ++ (json_dumps r ++ [10])

/-- `l` contains no newline code point. -/
def noNewline (l : List Nat) : Prop := ∀ d ∈ l, d ≠ 10

theorem noNewline_append {a b : List Nat} (ha : noNewline a)
    (hb : noNewline b) : noNewline (a ++ b) := by
  intro d hd
  rcases List.mem_append.mp hd with h | h
  · exact ha d h
  · exact hb d h

theorem hexDigit_ne_newline (n : Nat) : hexDigit n ≠ 10 := by
  unfold hexDigit
  split <;> omega

theorem uEscape_noNewline (n : Nat) : noNewline (uEscape n) := by
  intro d hd
  simp [uEscape] at hd
  rcases hd with rfl | rfl | rfl | rfl | rfl | rfl
  · omega
  · omega
  all_goals exact hexDigit_ne_newline _

theorem escapeChar_noNewline (c : Nat) : noNewline (escapeChar c) := by
  intro d hd
  unfold escapeChar at hd
  split_ifs at hd with h1 h2 h3 h4 h5 h6 h7 h8 h9
  · simp at hd; omega
  · simp at hd; omega
  · simp at hd; omega
  · simp at hd; omega
  · simp at hd; omega
  · simp at hd; omega
  · simp at hd; omega
  · simp at hd; omega
  · exact uEscape_noNewline _ d hd
  · rcases List.mem_append.mp hd with h | h
    · exact uEscape_noNewline _ d h
    · exact uEscape_noNewline _ d h

theorem jsonString_noNewline (s : List Nat) : noNewline (jsonString s) := by
  intro d hd
  rcases List.mem_append.mp hd with h | h
  · rcases List.mem_append.mp h with h | h
    · simp at h; omega
    · obtain ⟨l, hl, hdl⟩ := List.mem_flatten.mp h
      obtain ⟨c, _, rfl⟩ := List.mem_map.mp hl
      exact escapeChar_noNewline c d hdl
  · simp at h; omega

theorem natToDigits_bounds (n : Nat) :
    ∀ d ∈ natToDigits n, 48 ≤ d ∧ d ≤ 57 := by
  induction n using Nat.strong_induction_on with
  | _ n ih =>
    intro d hd
    unfold natToDigits at hd
    split_ifs at hd with h
    · simp at hd; omega
    · rcases List.mem_append.mp hd with hd | hd
      · exact ih (n / 10) (by omega) d hd
      · simp at hd; omega

theorem natToDigits_noNewline (n : Nat) : noNewline (natToDigits n) := by
  intro d hd
  have := natToDigits_bounds n d hd
  omega

theorem jsonBool_noNewline (b : Bool) : noNewline (jsonBool b) := by
  unfold noNewline
  cases b <;> decide

theorem json_dumps_noNewline (r : StoredRecord) : noNewline (json_dumps r) := by
  unfold json_dumps
  refine noNewline_append (noNewline_append (noNewline_append (noNewline_append
    (noNewline_append (noNewline_append (noNewline_append (noNewline_append
      (noNewline_append (noNewline_append ?_ (jsonString_noNewline _)) ?_)
        (jsonString_noNewline _)) ?_) (jsonString_noNewline _)) ?_)
          (natToDigits_noNewline _)) ?_) (jsonBool_noNewline _)) ?_ <;>
    · unfold noNewline
      decide

/-- C9. `save_to_json` only appends: the previous file contents are
preserved unchanged as the head of the new contents, the appended chunk
is exactly the serialised record followed by one newline, the serialised
object itself contains no newline, and the file gains exactly one line.
(`json_dumps` builds the one JSON object with keys `topic, payload,
datetime, qos, retain` in that order from the record's fields, as
`json.dumps` does on lines 68-76.) -/
theorem json_sink_append_only (file : List Nat) (r : StoredRecord) :
    (save_to_json file r).take file.length = file
    ∧ (save_to_json file r).drop file.length = json_dumps r ++ [10]
    ∧ (json_dumps r).count 10 = 0
    ∧ (save_to_json file r).count 10 = file.count 10 + 1 := by
  have hnn : (json_dumps r).count 10 = 0 :=
    List.count_eq_zero.mpr (fun h => json_dumps_noNewline r 10 h rfl)
  refine ⟨?_, ?_, hnn, ?_⟩
  · rw [save_to_json, List.take_left]
  · rw [save_to_json, List.drop_left]
  · rw [save_to_json, List.count_append, List.count_append, hnn]
    simp

end MqttLog
